import Mathlib

/-!
Verification of the code-review pipeline of `draagon-forge`
(`src/draagon_forge/agents/code_review/`): file classification and
prioritization (`file_classifier.py`), diff chunking (`chunker.py`),
diff parsing (`git_diff.py`) and verdict aggregation / cross-file
synthesis / parallel collection (`agent.py`).

Strings are modelled through their character lists; Python
`str.lower()` is modelled by `Char.toLower` on each character (the
paths involved are ASCII). Python list slices with possibly negative
bounds are modelled by `pyIdx`/`pyTake`/`pyDrop` below.
-/

namespace DraagonForge

/-- Lower-cased character list of a string: models Python `s.lower()`
followed by reading the characters. -/
def lcChars (s : String) : List Char := s.data.map Char.toLower

/-- Contiguous substring test: does `sub` occur inside `l`? -/
def infixOfB (sub : List Char) : List Char → Bool
  | [] => sub.isEmpty
  | c :: t => sub.isPrefixOf (c :: t) || infixOfB sub t

/-- Suffix test on character lists. -/
def suffixB (suf l : List Char) : Bool := List.isSuffixOf suf l

/-- Prefix test on character lists. -/
def prefixB (pre l : List Char) : Bool := List.isPrefixOf pre l

/-- Python slice index: converts a possibly negative slice bound `r`
over a list of length `n` to the effective nonnegative index
`max 0 (n + r)` when `r < 0`, and `r` itself otherwise. -/
def pyIdx (n : Nat) (r : Int) : Nat :=
  if 0 ≤ r then r.toNat else ((n : Int) + r).toNat

/-- Python `l[:r]` for an arbitrary (possibly negative) integer bound. -/
def pyTake (l : List α) (r : Int) : List α := l.take (pyIdx l.length r)

/-- Python `l[r:]` for an arbitrary (possibly negative) integer bound. -/
def pyDrop (l : List α) (r : Int) : List α := l.drop (pyIdx l.length r)

/-! ## Data model (`models.py`) -/

/-- `IssueSeverity` enum from `models.py`. -/
inductive IssueSeverity where
  | blocking
  | warning
  | suggestion
  deriving DecidableEq, Repr

/-- `FileClassification` enum from `models.py`. -/
inductive FileClassification where
  | critical
  | important
  | minor
  | noise
  deriving DecidableEq, Repr

/-- `DiffHunk` dataclass from `models.py`. -/
structure DiffHunk where
  old_start : Nat
  old_count : Nat
  new_start : Nat
  new_count : Nat
  content : String
  header : String := ""
  deriving DecidableEq, Repr

/-- `DiffChunk` dataclass from `models.py`. -/
structure DiffChunk where
  hunks : List DiffHunk
  context_before : String := ""
  context_after : String := ""
  file_path : String := ""
  estimated_tokens : Nat := 0
  deriving DecidableEq, Repr

/-- `FileDiff` dataclass from `models.py`. -/
structure FileDiff where
  path : String
  old_path : Option String := none
  status : String := "modified"
  hunks : List DiffHunk := []
  lines_added : Nat := 0
  lines_deleted : Nat := 0
  is_binary : Bool := false
  raw_diff : String := ""
  deriving DecidableEq, Repr

/-- `FileDiff.total_lines_changed` property from `models.py`. -/
def FileDiff.total_lines_changed (f : FileDiff) : Nat :=
  f.lines_added + f.lines_deleted

/-- `ReviewIssue` dataclass from `models.py` (fields used by the
aggregation logic; optional metadata fields kept with their defaults). -/
structure ReviewIssue where
  severity : IssueSeverity
  message : String
  file_path : String
  line_number : Option Nat := none
  suggestion : Option String := none
  deriving DecidableEq, Repr

/-- `FileReviewResult` dataclass from `models.py`. -/
structure FileReviewResult where
  file_path : String
  issues : List ReviewIssue := []
  summary : String := ""
  tokens_used : Nat := 0
  review_duration_ms : Nat := 0
  deriving DecidableEq, Repr

/-! ## File classifier (`file_classifier.py`)

Each regex of the classifier's pattern tables is an anchored or
unanchored search (`re.search` with `re.I`) of a fixed shape, and is
translated to the equivalent prefix/suffix/substring test on the
lower-cased path. Patterns of the form `(^|/)X` match exactly when
`/X` occurs in `"/" ++ path`. -/

/-- Lower-cased path with a leading `/` prepended, for `(^|/)X` searches. -/
def slashed (path : String) : List Char := '/' :: lcChars path

/-- `CRITICAL_PATHS` table: `re.search` of each pattern, `re.I`. -/
def matchesCriticalPath (path : String) : Bool :=
  let l := slashed path
  infixOfB "/auth/".data l ||
  infixOfB "/authentication/".data l ||
  infixOfB "/crypto/".data l ||
  infixOfB "/security/".data l ||
  infixOfB "/secrets/".data l ||
  infixOfB "/password".data l ||
  infixOfB "/credentials".data l ||
  infixOfB "/oauth".data l ||
  infixOfB "/jwt".data l ||
  -- `(^|/)api[-_]?key`
  infixOfB "/apikey".data l ||
  infixOfB "/api-key".data l ||
  infixOfB "/api_key".data l

/-- Suffix alternation helper: `name\.(py|ts|js|json|yaml|yml)$`. -/
def configLikeSuffix (stem : String) (l : List Char) : Bool :=
  suffixB (stem ++ ".py").data l ||
  suffixB (stem ++ ".ts").data l ||
  suffixB (stem ++ ".js").data l ||
  suffixB (stem ++ ".json").data l ||
  suffixB (stem ++ ".yaml").data l ||
  suffixB (stem ++ ".yml").data l

/-- `CRITICAL_FILES` table. `\.env(\..+)?$` matches iff the path ends
with `.env`, or `.env.` occurs with at least one character after it
(the optional group then runs to the end of the string). -/
def matchesCriticalFile (path : String) : Bool :=
  let l := lcChars path
  (suffixB ".env".data l || infixOfB ".env.".data l.dropLast) ||
  configLikeSuffix "config" l ||
  configLikeSuffix "settings" l ||
  configLikeSuffix "secrets" l ||
  configLikeSuffix "credentials" l ||
  suffixB "package.json".data l ||
  suffixB "pyproject.toml".data l ||
  suffixB "requirements.txt".data l ||
  suffixB "gemfile".data l ||
  suffixB "cargo.toml".data l ||
  suffixB "go.mod".data l ||
  -- `docker-compose\.ya?ml$`
  suffixB "docker-compose.yaml".data l ||
  suffixB "docker-compose.yml".data l ||
  suffixB "dockerfile".data l

/-- `NOISE_PATTERNS` table. -/
def matchesNoise (path : String) : Bool :=
  let l := lcChars path
  let sl := slashed path
  suffixB ".lock".data l ||
  suffixB "lock.json".data l ||
  suffixB ".min.js".data l ||
  suffixB ".min.css".data l ||
  infixOfB "/dist/".data sl ||
  infixOfB "/build/".data sl ||
  infixOfB "/node_modules/".data sl ||
  infixOfB "/vendor/".data sl ||
  infixOfB "/.git/".data sl ||
  infixOfB "/__pycache__/".data sl ||
  suffixB ".pyc".data l ||
  infixOfB "/coverage/".data sl ||
  suffixB ".map".data l ||
  infixOfB "/.next/".data sl ||
  infixOfB "/.nuxt/".data sl

/-- `TEST_PATTERNS` table. `test_.*\.py$` matches iff the path ends
with `.py` and `test_` occurs with the `.py` suffix entirely after it. -/
def matchesTests (path : String) : Bool :=
  let l := lcChars path
  let sl := slashed path
  infixOfB "/test/".data sl ||
  infixOfB "/tests/".data sl ||
  infixOfB "/__tests__/".data sl ||
  suffixB ".test.ts".data l ||
  suffixB ".test.tsx".data l ||
  suffixB ".test.js".data l ||
  suffixB ".test.jsx".data l ||
  suffixB ".spec.ts".data l ||
  suffixB ".spec.tsx".data l ||
  suffixB ".spec.js".data l ||
  suffixB ".spec.jsx".data l ||
  suffixB "_test.py".data l ||
  suffixB "_test.go".data l ||
  (suffixB ".py".data l && infixOfB "test_".data (l.take (l.length - 3)))

/-- `DOC_PATTERNS` table (`README`, `CHANGELOG`, `LICENSE` are
unanchored searches, case-insensitive). -/
def matchesDocs (path : String) : Bool :=
  let l := lcChars path
  let sl := slashed path
  suffixB ".md".data l ||
  suffixB ".rst".data l ||
  suffixB ".txt".data l ||
  infixOfB "/doc/".data sl ||
  infixOfB "/docs/".data sl ||
  infixOfB "readme".data l ||
  infixOfB "changelog".data l ||
  infixOfB "license".data l

/-- `IMPORTANT_PATTERNS` table. -/
def matchesImportant (path : String) : Bool :=
  let sl := slashed path
  infixOfB "/api/".data sl ||
  infixOfB "/routes/".data sl ||
  infixOfB "/endpoints/".data sl ||
  infixOfB "/handlers/".data sl ||
  infixOfB "/controllers/".data sl ||
  infixOfB "/services/".data sl ||
  infixOfB "/models/".data sl ||
  infixOfB "/schemas/".data sl ||
  infixOfB "/database/".data sl ||
  infixOfB "/migration/".data sl ||
  infixOfB "/migrations/".data sl

/-- `FileClassifier` constructor state: the two thresholds `classify`
reads (`critical_threshold` is never consulted by `classify`).
Defaults are the constructor defaults, used by the agent. -/
structure FileClassifier where
  important_threshold : Nat := 50
  minor_threshold : Nat := 20
  deriving Repr

/-- `FileClassifier.classify` from `file_classifier.py` (lines 120-170):
binary → noise; noise patterns; critical paths; critical files; tests
and docs (minor unless above the important threshold); important
patterns; size fallback. -/
def FileClassifier.classify (c : FileClassifier) (file_diff : FileDiff) :
    FileClassification :=
  let path := file_diff.path
  let lines_changed := file_diff.total_lines_changed
  if file_diff.is_binary then .noise
  else if matchesNoise path then .noise
  else if matchesCriticalPath path then .critical
  else if matchesCriticalFile path then .critical
  else if matchesTests path then
    if lines_changed > c.important_threshold then .important else .minor
  else if matchesDocs path then
    if lines_changed > c.important_threshold then .important else .minor
  else if matchesImportant path then .important
  else if lines_changed > c.important_threshold then .important
  else if lines_changed > c.minor_threshold then .minor
  else .minor

/-- `FileClassifier.classify_all`: groups the diffs by classification,
preserving input order within each group. -/
def FileClassifier.classify_all (c : FileClassifier) (diffs : List FileDiff)
    (k : FileClassification) : List FileDiff :=
  diffs.filter (fun d => c.classify d = k)

/-- Insertion step for the stable descending sort: `a` is placed before
the first element whose changed-line count does not exceed `a`'s, so
elements with an equal key that were originally later stay after `a`. -/
def insertByLinesDesc (a : FileDiff) : List FileDiff → List FileDiff
  | [] => [a]
  | b :: t =>
    if a.total_lines_changed < b.total_lines_changed then b :: insertByLinesDesc a t
    else a :: b :: t

/-- Stable descending sort by `total_lines_changed`: models Python
`list.sort(key=..., reverse=True)`. Python's sort is stable, and a
stable sort with respect to this total preorder has a unique result,
so this structurally recursive insertion sort (stable, descending)
computes exactly the list the source produces. -/
def sortByLinesDesc : List FileDiff → List FileDiff
  | [] => []
  | a :: t => insertByLinesDesc a (sortByLinesDesc t)

/-- `FileClassifier.prioritize` from `file_classifier.py` (lines
189-229), including the Python slice semantics of
`important[:remaining]` / `important[remaining:]` where `remaining`
may be negative. -/
def FileClassifier.prioritize (c : FileClassifier) (diffs : List FileDiff)
    (max_files : Nat) : List FileDiff × List FileDiff :=
  let criticals := c.classify_all diffs .critical
  let to_review₀ := criticals
  let remaining : Int := (max_files : Int) - to_review₀.length
  let important := sortByLinesDesc (c.classify_all diffs .important)
  let to_review₁ := to_review₀ ++ pyTake important remaining
  let skipped₁ := pyDrop important remaining
  let remaining₂ : Int := (max_files : Int) - to_review₁.length
  let minor := c.classify_all diffs .minor
  let to_review₂ :=
    if 0 < remaining₂ then to_review₁ ++ pyTake (sortByLinesDesc minor) remaining₂
    else to_review₁
  let skipped₂ :=
    if 0 < remaining₂ then skipped₁ ++ pyDrop (sortByLinesDesc minor) remaining₂
    else skipped₁ ++ minor
  let skipped₃ := skipped₂ ++ c.classify_all diffs .noise
  (to_review₂, skipped₃)


theorem pyTake_append_pyDrop (l : List α) (r : Int) : pyTake l r ++ pyDrop l r = l :=
  List.take_append_drop _ _

theorem length_pyTake_add_pyDrop (l : List α) (r : Int) :
    (pyTake l r).length + (pyDrop l r).length = l.length := by
  rw [← List.length_append, pyTake_append_pyDrop]

theorem mem_pyTake {l : List α} {r : Int} {a : α} (h : a ∈ pyTake l r) : a ∈ l :=
  List.mem_of_mem_take h

theorem mem_pyDrop {l : List α} {r : Int} {a : α} (h : a ∈ pyDrop l r) : a ∈ l :=
  List.mem_of_mem_drop h

theorem insertByLinesDesc_perm (a : FileDiff) (l : List FileDiff) :
    List.Perm (insertByLinesDesc a l) (a :: l) := by
  induction l with
  | nil => rfl
  | cons b t ih =>
    simp only [insertByLinesDesc]
    split
    · exact (ih.cons b).trans (List.Perm.swap a b t)
    · rfl

theorem sortByLinesDesc_perm (l : List FileDiff) :
    List.Perm (sortByLinesDesc l) l := by
  induction l with
  | nil => rfl
  | cons a t ih => exact (insertByLinesDesc_perm a (sortByLinesDesc t)).trans (ih.cons a)

theorem mem_sortByLinesDesc {l : List FileDiff} {a : FileDiff} :
    a ∈ sortByLinesDesc l ↔ a ∈ l := (sortByLinesDesc_perm l).mem_iff

theorem length_sortByLinesDesc (l : List FileDiff) :
    (sortByLinesDesc l).length = l.length := (sortByLinesDesc_perm l).length_eq

theorem mem_classify_all {c : FileClassifier} {diffs : List FileDiff} {k : FileClassification}
    {a : FileDiff} (h : a ∈ c.classify_all diffs k) : c.classify a = k := by
  have := List.of_mem_filter h
  simpa using this

theorem classify_all_length_sum (c : FileClassifier) (diffs : List FileDiff) :
    (c.classify_all diffs .critical).length + (c.classify_all diffs .important).length +
      (c.classify_all diffs .minor).length + (c.classify_all diffs .noise).length
      = diffs.length := by
  induction diffs with
  | nil => rfl
  | cons d t ih =>
    simp only [FileClassifier.classify_all, List.filter_cons] at ih ⊢
    cases h : c.classify d <;> simp [h] <;> omega

/-- C3: for every list of FileChanges and every maxFiles, `prioritize`
returns `(included, excluded)` such that every critical-tier file is in
`included`, no noise-tier file is in `included`, and
`included.length + excluded.length = diffs.length` — a total and
exclusive partition of the input. -/
theorem prioritize_partition (c : FileClassifier) (diffs : List FileDiff) (mf : Nat) :
    (∀ f, f ∈ diffs → c.classify f = .critical → f ∈ (c.prioritize diffs mf).1) ∧
    (∀ f, f ∈ (c.prioritize diffs mf).1 → ¬ c.classify f = .noise) ∧
    (c.prioritize diffs mf).1.length + (c.prioritize diffs mf).2.length = diffs.length := by
  simp only [FileClassifier.prioritize]
  refine ⟨?_, ?_, ?_⟩
  · intro f hf hc
    have hm : f ∈ c.classify_all diffs .critical := by
      simp [FileClassifier.classify_all, List.mem_filter, hf, hc]
    split <;> simp [hm]
  · intro f hf
    have hk : c.classify f = .critical ∨ c.classify f = .important ∨ c.classify f = .minor := by
      split at hf
      · rcases List.mem_append.1 hf with h | h
        · rcases List.mem_append.1 h with h | h
          · exact Or.inl (mem_classify_all h)
          · exact Or.inr (Or.inl (mem_classify_all (mem_sortByLinesDesc.1 (mem_pyTake h))))
        · exact Or.inr (Or.inr (mem_classify_all (mem_sortByLinesDesc.1 (mem_pyTake h))))
      · rcases List.mem_append.1 hf with h | h
        · exact Or.inl (mem_classify_all h)
        · exact Or.inr (Or.inl (mem_classify_all (mem_sortByLinesDesc.1 (mem_pyTake h))))
    rcases hk with h | h | h <;> simp [h]
  · have hsum := classify_all_length_sum c diffs
    split <;>
      · simp only [List.length_append, pyTake, pyDrop, List.length_take, List.length_drop,
          length_sortByLinesDesc]
        omega


/-- Witness for C3: a concrete run where a critical file (`.env`) lands in
the included list, obtained by applying `prioritize_partition` with its
hypotheses discharged on concrete input. -/
theorem prioritize_partition_witness :
    ({ path := ".env", lines_added := 1 } : FileDiff) ∈
      (FileClassifier.prioritize {}
        [{ path := ".env", lines_added := 1 },
         { path := "package-lock.json", lines_added := 1000 },
         { path := "src/main.py", lines_added := 10 }] 10).1 :=
  (prioritize_partition {}
    [{ path := ".env", lines_added := 1 },
     { path := "package-lock.json", lines_added := 1000 },
     { path := "src/main.py", lines_added := 10 }] 10).1
    { path := ".env", lines_added := 1 } (by decide) (by decide)

/-- C10: `classify` reads only the path, the binary flag and the total
changed-line count of a `FileDiff`: two diffs agreeing on these three
values classify identically, whatever their hunks, raw diff text,
status or old path. -/
theorem classify_extensional (c : FileClassifier) (f g : FileDiff)
    (hp : f.path = g.path) (hb : f.is_binary = g.is_binary)
    (ht : f.total_lines_changed = g.total_lines_changed) :
    c.classify f = c.classify g := by
  simp only [FileClassifier.classify, hp, hb, ht]

/-- Witness for C10: two concrete diffs with the same path, binary flag
and total changed-line count but different hunks, status, old path and
raw text classify identically. -/
theorem classify_extensional_witness :
    (({ path := "src/api/app.py", lines_added := 30, lines_deleted := 10 } : FileDiff).path
        = ({ path := "src/api/app.py", old_path := some "old.py", status := "renamed",
             hunks := [{ old_start := 1, old_count := 1, new_start := 1, new_count := 1,
                         content := "@@ -1 +1 @@" }],
             lines_added := 25, lines_deleted := 15,
             raw_diff := "diff" } : FileDiff).path) ∧
    FileClassifier.classify {} { path := "src/api/app.py", lines_added := 30, lines_deleted := 10 }
      = FileClassifier.classify {}
          { path := "src/api/app.py", old_path := some "old.py", status := "renamed",
            hunks := [{ old_start := 1, old_count := 1, new_start := 1, new_count := 1,
                        content := "@@ -1 +1 @@" }],
            lines_added := 25, lines_deleted := 15, raw_diff := "diff" } :=
  ⟨by decide,
   classify_extensional {}
     { path := "src/api/app.py", lines_added := 30, lines_deleted := 10 }
     { path := "src/api/app.py", old_path := some "old.py", status := "renamed",
       hunks := [{ old_start := 1, old_count := 1, new_start := 1, new_count := 1,
                   content := "@@ -1 +1 @@" }],
       lines_added := 25, lines_deleted := 15, raw_diff := "diff" }
     (by decide) (by decide) (by decide)⟩

/-- C4 (code bug): with `max_files = 1` and two critical files, the
remaining budget in `prioritize` becomes the negative number `-1`, and
the Python slice `important[:remaining]` then keeps all but the last
important file instead of none: the included list contains the
important-tier file `src/api/big.py` even though the critical-tier
files alone already exhaust `max_files`. -/
theorem prioritize_negative_slice_bug :
    (FileClassifier.classify_all {}
      [{ path := ".env", lines_added := 1 }, { path := "b.env", lines_added := 1 },
       { path := "src/api/big.py", lines_added := 100 },
       { path := "src/api/small.py", lines_added := 10 }] .critical).length = 2 ∧
    (FileClassifier.prioritize {}
      [{ path := ".env", lines_added := 1 }, { path := "b.env", lines_added := 1 },
       { path := "src/api/big.py", lines_added := 100 },
       { path := "src/api/small.py", lines_added := 10 }] 1).1 =
      [{ path := ".env", lines_added := 1 }, { path := "b.env", lines_added := 1 },
       { path := "src/api/big.py", lines_added := 100 }] ∧
    FileClassifier.classify {} { path := "src/api/big.py", lines_added := 100 }
      = .important := by decide

/-! ## Verdict aggregation (`agent.py`, `CodeReviewAgent.review`) -/

/-- The issue bucketing and verdict selection from
`CodeReviewAgent.review` (agent.py lines 145-161): partition the
collected issues by severity, then pick the verdict from the blocking
bucket and the warning count. -/
def overall_assessment (all_issues : List ReviewIssue) : String :=
  let blocking := all_issues.filter (fun i => i.severity = .blocking)
  let warnings := all_issues.filter (fun i => i.severity = .warning)
  if blocking ≠ [] then "request_changes"
  else if warnings.length > 3 then "request_changes"
  else if warnings ≠ [] then "needs_discussion"
  else "approve"

/-- The verdict table as the specification words it (§4.4): a pure
function of (whether any blocking issue exists, the warning count). -/
def verdictTable (hasBlocking : Bool) (warningCount : Nat) : String :=
  if hasBlocking then "request_changes"
  else if warningCount > 3 then "request_changes"
  else if warningCount > 0 then "needs_discussion"
  else "approve"

/-- C1: for every fixed issue set, the overall assessment equals the
spec's verdict table applied to (any blocking issue exists, warning
count): `request_changes` on any blocking issue; else `request_changes`
when the warning count exceeds 3; else `needs_discussion` when it is
positive; else `approve`. In particular the verdict is a pure function
of that pair. -/
theorem overall_assessment_eq_table (issues : List ReviewIssue) :
    overall_assessment issues =
      verdictTable (issues.any (fun i => i.severity = .blocking))
        (issues.countP (fun i => i.severity = .warning)) := by
  simp only [overall_assessment, verdictTable, List.countP_eq_length_filter]
  by_cases hb : issues.any (fun i => i.severity = .blocking) = true
  · have hne : issues.filter (fun i => i.severity = .blocking) ≠ [] := by
      simp only [ne_eq, List.filter_eq_nil_iff]
      rcases List.any_eq_true.1 hb with ⟨x, hx, hsev⟩
      exact fun h => h x hx hsev
    simp [hne, hb]
  · have hnil : issues.filter (fun i => i.severity = .blocking) = [] := by
      simp only [List.filter_eq_nil_iff]
      intro x hx hsev
      exact hb (List.any_eq_true.2 ⟨x, hx, hsev⟩)
    have hb' : issues.any (fun i => i.severity = .blocking) = false :=
      Bool.eq_false_iff.2 hb
    by_cases hw : (issues.filter (fun i => i.severity = .warning)).length > 3
    · simp [hnil, hb', hw]
    · by_cases hw0 : issues.filter (fun i => i.severity = .warning) = []
      · simp [hnil, hb', hw, hw0]
      · have hlen : 0 < (issues.filter (fun i => i.severity = .warning)).length :=
          List.length_pos.2 hw0
        simp [hnil, hb', hw, hw0, hlen]

/-! ## Diff chunker (`chunker.py`) -/

/-- `DiffChunker.estimate_tokens` (chunker.py lines 80-82): integer
floor division of the character count by `CHARS_PER_TOKEN = 4`. -/
def estimate_tokens (text : String) : Nat := text.length / 4

/-- Counterexample for C9: on a 5-character text the token estimate is
`5 // 4 = 1`, not `ceil(5/4) = 2`: the estimate rounds down, not up. -/
theorem estimate_tokens_not_ceil :
    "aaaaa".length = 5 ∧ estimate_tokens "aaaaa" = 1 ∧ (5 + 3) / 4 = 2 ∧
      estimate_tokens "aaaaa" ≠ (5 + 3) / 4 := by decide

/-- C9 amended: the token estimate is `floor(charCount/4)`,
characterized by `4*est ≤ charCount < 4*est + 4`; texts whose length is
not a multiple of 4 round down. -/
theorem estimate_tokens_floor (text : String) :
    estimate_tokens text = text.length / 4 ∧
    4 * estimate_tokens text ≤ text.length ∧
    text.length < 4 * estimate_tokens text + 4 := by
  refine ⟨rfl, ?_, ?_⟩ <;> · simp only [estimate_tokens]; omega


/-- Python `s.split("\n")` on the character list, accumulator-based. -/
def splitLinesAux : List Char → List Char → List (List Char)
  | [], acc => [acc.reverse]
  | c :: cs, acc =>
    if c = '\n' then acc.reverse :: splitLinesAux cs [] else splitLinesAux cs (c :: acc)

/-- Python `s.split("\n")`. -/
def splitLines (s : String) : List String := (splitLinesAux s.data []).map List.asString

/-- Python `"\n".flatten(lines)`. -/
def joinNL : List String → String
  | [] => ""
  | [a] => a
  | a :: b :: rest => a ++ "\n" ++ joinNL (b :: rest)

/-- `DiffChunker` constructor state (chunker.py `__init__`):
`max_chars = max_tokens * 4` is derived and unused by `chunk_diff`. -/
structure DiffChunker where
  max_tokens : Nat := 400
  overlap_lines : Nat := 3
  deriving Repr

/-- `DiffChunker.needs_chunking`. -/
def DiffChunker.needs_chunking (c : DiffChunker) (diff : FileDiff) : Bool :=
  estimate_tokens diff.raw_diff > c.max_tokens

/-- `DiffChunker._detect_language`: first matching extension of
`EXT_LANGUAGE_MAP` in insertion order (Python dicts iterate in
insertion order; the comparison is case-sensitive). -/
def detect_language (file_path : String) : Option String :=
  let l := file_path.data
  if suffixB ".py".data l then some "python"
  else if suffixB ".js".data l then some "javascript"
  else if suffixB ".jsx".data l then some "javascript"
  else if suffixB ".ts".data l then some "typescript"
  else if suffixB ".tsx".data l then some "typescript"
  else if suffixB ".go".data l then some "go"
  else if suffixB ".rs".data l then some "rust"
  else if suffixB ".java".data l then some "java"
  else none

/-- `DiffChunker._create_chunk`. -/
def create_chunk (file_path : String) (hunks : List DiffHunk) : DiffChunk :=
  { hunks := hunks, file_path := file_path,
    estimated_tokens := (hunks.map (fun h => estimate_tokens h.content)).sum }

/-- The grouping loop of `DiffChunker._chunk_by_semantics` (chunker.py
lines 124-153): `sb h` abstracts the regex test `any(p.search(h.header)
or p.search(h.content[:200]) for p in patterns)` — the claims proved
below hold for every value of this boolean, in particular for the
regex-computed one. -/
def groupHunks (sb : DiffHunk → Bool) (mt : Nat) :
    List DiffHunk → List DiffHunk → Nat → List (List DiffHunk)
  | [], current, _ => if current.isEmpty then [] else [current]
  | h :: rest, current, curTok =>
    let ht := estimate_tokens h.content
    if sb h && !current.isEmpty then
      current :: groupHunks sb mt rest [h] ht
    else if decide (curTok + ht > mt) && !current.isEmpty then
      current :: groupHunks sb mt rest [h] ht
    else
      groupHunks sb mt rest (current ++ [h]) (curTok + ht)

/-- One chunk of `DiffChunker._groups_to_chunks`: context lines are the
last `overlap` lines of the previous group's last hunk and the first
`overlap` lines of the next group's first hunk, when those groups exist
and are nonempty. -/
def mkGroupChunk (overlap : Nat) (file_path : String)
    (prev : Option (List DiffHunk)) (g : List DiffHunk)
    (next : Option (List DiffHunk)) : DiffChunk :=
  let context_before :=
    match prev with
    | some p =>
      match p.getLast? with
      | some prevHunk => joinNL (pyDrop (splitLines prevHunk.content) (-(overlap : Int)))
      | none => ""
    | none => ""
  let context_after :=
    match next with
    | some n =>
      match n.head? with
      | some nextHunk => joinNL (pyTake (splitLines nextHunk.content) (overlap : Int))
      | none => ""
    | none => ""
  { hunks := g, context_before := context_before, context_after := context_after,
    file_path := file_path,
    estimated_tokens := (g.map (fun h => estimate_tokens h.content)).sum }

/-- `DiffChunker._groups_to_chunks`, threading the previous group. -/
def groups_to_chunks (overlap : Nat) (file_path : String) :
    Option (List DiffHunk) → List (List DiffHunk) → List DiffChunk
  | _, [] => []
  | prev, g :: rest =>
    mkGroupChunk overlap file_path prev g rest.head? ::
      groups_to_chunks overlap file_path (some g) rest

/-- `DiffChunker._chunk_by_semantics`: `none` when the path has no
recognized language (every language of the extension map has boundary
patterns, so the `language not in BOUNDARY_PATTERNS` test never fires). -/
def chunk_by_semantics (ck : DiffChunker) (sb : String → DiffHunk → Bool)
    (diff : FileDiff) : Option (List DiffChunk) :=
  match detect_language diff.path with
  | none => none
  | some lang =>
    some (groups_to_chunks ck.overlap_lines diff.path none
      (groupHunks (sb lang) ck.max_tokens diff.hunks [] 0))

/-- The loop of `DiffChunker._chunk_by_hunks` (chunker.py lines 158-188). -/
def chunkByHunksAux (mt : Nat) (file_path : String) :
    List DiffHunk → List DiffHunk → Nat → List DiffChunk
  | [], current, _ => if current.isEmpty then [] else [create_chunk file_path current]
  | h :: rest, current, curTok =>
    let ht := estimate_tokens h.content
    if decide (ht > mt) then
      if current.isEmpty then
        create_chunk file_path [h] :: chunkByHunksAux mt file_path rest [] 0
      else
        create_chunk file_path current :: create_chunk file_path [h] ::
          chunkByHunksAux mt file_path rest [] 0
    else if decide (curTok + ht > mt) && !current.isEmpty then
      create_chunk file_path current :: chunkByHunksAux mt file_path rest [h] ht
    else
      chunkByHunksAux mt file_path rest (current ++ [h]) (curTok + ht)

/-- `DiffChunker._chunk_by_hunks`. -/
def chunk_by_hunks (ck : DiffChunker) (diff : FileDiff) : List DiffChunk :=
  chunkByHunksAux ck.max_tokens diff.path diff.hunks [] 0

/-- `DiffChunker.chunk_diff` (chunker.py lines 88-113): small diffs are a
single chunk; otherwise the semantic grouping is used when it yields a
non-empty chunk list (Python truthiness of the returned list), else the
hunk-based fallback. -/
def chunk_diff (ck : DiffChunker) (sb : String → DiffHunk → Bool)
    (diff : FileDiff) : List DiffChunk :=
  if !ck.needs_chunking diff then
    [{ hunks := diff.hunks, file_path := diff.path,
       estimated_tokens := estimate_tokens diff.raw_diff }]
  else
    match chunk_by_semantics ck sb diff with
    | some chunks => if chunks.isEmpty then chunk_by_hunks ck diff else chunks
    | none => chunk_by_hunks ck diff

theorem groupHunks_join (sb : DiffHunk → Bool) (mt : Nat) (hunks : List DiffHunk) :
    ∀ (current : List DiffHunk) (tok : Nat),
      (groupHunks sb mt hunks current tok).flatten = current ++ hunks := by
  induction hunks with
  | nil =>
    intro current tok
    simp only [groupHunks]
    split
    · simp_all [List.isEmpty_iff]
    · simp
  | cons h t ih =>
    intro current tok
    simp only [groupHunks]
    split
    · simp [ih]
    · split
      · simp [ih]
      · simp [ih]

theorem groups_to_chunks_join (ov : Nat) (p : String) (groups : List (List DiffHunk)) :
    ∀ prev, ((groups_to_chunks ov p prev groups).map DiffChunk.hunks).flatten = groups.flatten := by
  induction groups with
  | nil => intro prev; simp [groups_to_chunks]
  | cons g rest ih => intro prev; simp [groups_to_chunks, mkGroupChunk, ih]

theorem chunkByHunksAux_join (mt : Nat) (p : String) (hunks : List DiffHunk) :
    ∀ (current : List DiffHunk) (tok : Nat),
      ((chunkByHunksAux mt p hunks current tok).map DiffChunk.hunks).flatten
        = current ++ hunks := by
  induction hunks with
  | nil =>
    intro current tok
    simp only [chunkByHunksAux]
    split
    · simp_all [List.isEmpty_iff]
    · simp [create_chunk]
  | cons h t ih =>
    intro current tok
    simp only [chunkByHunksAux]
    split
    · split
      · simp_all [List.isEmpty_iff, create_chunk, ih]
      · simp [create_chunk, ih]
    · split
      · simp [create_chunk, ih]
      · simp [ih]

/-- C2: for every FileChange, every chunker configuration and every
boundary predicate, concatenating in order the hunk lists of the chunks
returned by `chunk_diff` yields exactly the FileChange's hunk list —
each hunk appears exactly once, unsplit, in the original relative
order, in the small-diff path, the semantic-grouping path and the
size-based fallback path alike. -/
theorem chunk_diff_partitions_hunks (ck : DiffChunker)
    (sb : String → DiffHunk → Bool) (diff : FileDiff) :
    ((chunk_diff ck sb diff).map DiffChunk.hunks).flatten = diff.hunks := by
  simp only [chunk_diff]
  split
  · simp
  · cases hsem : chunk_by_semantics ck sb diff with
    | none =>
      simpa [chunk_by_hunks] using
        chunkByHunksAux_join ck.max_tokens diff.path diff.hunks [] 0
    | some chunks =>
      simp only []
      split
      · simpa [chunk_by_hunks] using
          chunkByHunksAux_join ck.max_tokens diff.path diff.hunks [] 0
      · simp only [chunk_by_semantics] at hsem
        cases hlang : detect_language diff.path with
        | none => simp [hlang] at hsem
        | some lang =>
          rw [hlang] at hsem
          cases hsem
          rw [groups_to_chunks_join, groupHunks_join]
          simp


/-! ## Cross-file synthesis (`agent.py`, `_synthesize_cross_file`) -/

theorem isEmpty_false_of_mem {α : Type} {l : List α} {a : α} (h : a ∈ l) :
    l.isEmpty = false := by
  cases l
  · simp at h
  · rfl

/-- `"test" in d.path.lower()` (agent.py lines 593-594). -/
def isTestPathFile (d : FileDiff) : Bool := infixOfB "test".data (lcChars d.path)

/-- `"api" in d.path.lower() or "routes" in d.path.lower()` (line 616). -/
def isApiPathFile (d : FileDiff) : Bool :=
  infixOfB "api".data (lcChars d.path) || infixOfB "routes".data (lcChars d.path)

/-- `d.path.endswith(".md") or "doc" in d.path.lower()` (line 617):
the `.md` check is case-sensitive on the raw path. -/
def isDocPathFile (d : FileDiff) : Bool :=
  suffixB ".md".data d.path.data || infixOfB "doc".data (lcChars d.path)

/-- The missing-test structural check (agent.py lines 592-613): a single
warning when there are source files, no test files, and some source
file changed more than 20 lines. -/
def missingTestIssues (diffs : List FileDiff) : List ReviewIssue :=
  let test_files := diffs.filter (fun d => isTestPathFile d)
  let source_files := diffs.filter (fun d => !isTestPathFile d)
  if !source_files.isEmpty && test_files.isEmpty then
    let significant_source := source_files.filter (fun d => d.total_lines_changed > 20)
    if !significant_source.isEmpty then
      [{ severity := .warning,
         message := "No test changes detected for " ++ toString significant_source.length
           ++ " modified source file(s). Consider adding tests.",
         file_path := "[cross-file]",
         suggestion := some "Add tests for the modified functionality" }]
    else []
  else []

/-- The missing-documentation structural check (agent.py lines 615-627):
a single suggestion when there are api/route files and no doc files. -/
def missingDocIssues (diffs : List FileDiff) : List ReviewIssue :=
  let api_files := diffs.filter (fun d => isApiPathFile d)
  let doc_files := diffs.filter (fun d => isDocPathFile d)
  if !api_files.isEmpty && doc_files.isEmpty then
    [{ severity := .suggestion,
       message := "API changes detected without documentation updates.",
       file_path := "[cross-file]",
       suggestion := some "Consider updating API documentation" }]
  else []

/-- `CodeReviewAgent._synthesize_cross_file` (agent.py lines 576-637).
`llm_available` models `self.llm` being set; `llm_pass` models the
outcome of the optional LLM cross-file pass, which only runs when at
least 3 files were reviewed (`none` = the pass raised and the failure
was swallowed). The whole body is guarded: with no LLM or fewer than
two per-file results it returns no issues at all. -/
def synthesize_cross_file (llm_available : Bool)
    (file_results : List FileReviewResult) (diffs : List FileDiff)
    (llm_pass : Option (List ReviewIssue)) : List ReviewIssue :=
  if !llm_available || file_results.length < 2 then []
  else
    missingTestIssues diffs ++ missingDocIssues diffs ++
      (if 3 ≤ file_results.length && llm_available then
        match llm_pass with
        | some extra => extra
        | none => []
      else [])

theorem mem_missingTestIssues (diffs : List FileDiff)
    (hNoTest : ∀ d ∈ diffs, isTestPathFile d = false)
    (hSig : ∃ d ∈ diffs, d.total_lines_changed > 20) :
    ∃ i ∈ missingTestIssues diffs,
      i.severity = .warning ∧ i.file_path = "[cross-file]" := by
  obtain ⟨d, hd, hdsz⟩ := hSig
  have hdTest : isTestPathFile d = false := hNoTest d hd
  have hTestNil : diffs.filter (fun x => isTestPathFile x) = [] :=
    List.filter_eq_nil_iff.2 (fun x hx => by simp [hNoTest x hx])
  have hdSrc : d ∈ diffs.filter (fun x => !isTestPathFile x) :=
    List.mem_filter.2 ⟨hd, by simp [hdTest]⟩
  have hdSig : d ∈ (diffs.filter (fun x => !isTestPathFile x)).filter
      (fun x => decide (x.total_lines_changed > 20)) :=
    List.mem_filter.2 ⟨hdSrc, by simpa using hdsz⟩
  simp only [missingTestIssues, hTestNil, isEmpty_false_of_mem hdSrc,
    isEmpty_false_of_mem hdSig, List.isEmpty_nil, Bool.not_false, Bool.and_self, if_true,
    List.mem_singleton]
  exact ⟨_, rfl, rfl, rfl⟩

theorem mem_missingDocIssues (diffs : List FileDiff)
    (hApi : ∃ d ∈ diffs, isApiPathFile d = true)
    (hNoDoc : ∀ d ∈ diffs, isDocPathFile d = false) :
    ∃ i ∈ missingDocIssues diffs,
      i.severity = .suggestion ∧ i.file_path = "[cross-file]" := by
  obtain ⟨d, hd, hdapi⟩ := hApi
  have hDocNil : diffs.filter (fun x => isDocPathFile x) = [] :=
    List.filter_eq_nil_iff.2 (fun x hx => by simp [hNoDoc x hx])
  have hdApi : d ∈ diffs.filter (fun x => isApiPathFile x) :=
    List.mem_filter.2 ⟨hd, hdapi⟩
  simp [missingDocIssues, hDocNil, isEmpty_false_of_mem hdApi]

/-- Counterexample for C5: the structural checks do not run
unconditionally. Two files were reviewed, one source file changed more
than 20 lines and no test-path file was changed, yet with no Reviewer
(LLM) available `_synthesize_cross_file` returns no issue at all. -/
theorem synthesize_cross_file_not_unconditional :
    synthesize_cross_file false
      [{ file_path := "src/core/a.py" }, { file_path := "src/core/b.py" }]
      [{ path := "src/core/a.py", lines_added := 30 },
       { path := "src/core/b.py", lines_added := 5 }]
      none = [] ∧
    ({ path := "src/core/a.py", lines_added := 30 } : FileDiff).total_lines_changed > 20 ∧
    isTestPathFile { path := "src/core/a.py", lines_added := 30 } = false ∧
    isTestPathFile { path := "src/core/b.py", lines_added := 5 } = false := by decide

/-- C5 amended: when a Reviewer (LLM) is available and at least two
files were reviewed, the structural checks run: if no changed file is
test-path and some (necessarily non-test) file changed more than 20
lines, a warning-severity issue is emitted, and if some api/route-path
file was changed and no documentation-path file was, a
suggestion-severity issue is emitted — regardless of the optional LLM
pass outcome. -/
theorem synthesize_cross_file_structural_checks
    (frs : List FileReviewResult) (diffs : List FileDiff)
    (lp : Option (List ReviewIssue)) (h2 : 2 ≤ frs.length) :
    ((∀ d ∈ diffs, isTestPathFile d = false) →
      (∃ d ∈ diffs, d.total_lines_changed > 20) →
      ∃ i ∈ synthesize_cross_file true frs diffs lp,
        i.severity = .warning ∧ i.file_path = "[cross-file]") ∧
    ((∃ d ∈ diffs, isApiPathFile d = true) →
      (∀ d ∈ diffs, isDocPathFile d = false) →
      ∃ i ∈ synthesize_cross_file true frs diffs lp,
        i.severity = .suggestion ∧ i.file_path = "[cross-file]") := by
  have hgate : ¬((!true || decide (frs.length < 2)) = true) := by
    simp
    omega
  constructor
  · intro hNoTest hSig
    obtain ⟨i, hi, hprops⟩ := mem_missingTestIssues diffs hNoTest hSig
    refine ⟨i, ?_, hprops⟩
    unfold synthesize_cross_file
    rw [if_neg hgate]
    exact List.mem_append_left _ (List.mem_append_left _ hi)
  · intro hApi hNoDoc
    obtain ⟨i, hi, hprops⟩ := mem_missingDocIssues diffs hApi hNoDoc
    refine ⟨i, ?_, hprops⟩
    unfold synthesize_cross_file
    rw [if_neg hgate]
    exact List.mem_append_left _ (List.mem_append_right _ hi)

/-- Witness for C5's amended theorem: a concrete run (LLM available, two
reviewed files, a 30-line source change, no test file, an api-path file,
no doc file) where both structural issues are emitted. -/
theorem synthesize_cross_file_structural_checks_witness :
    (∃ i ∈ synthesize_cross_file true
        [{ file_path := "src/api/a.py" }, { file_path := "src/core/b.py" }]
        [{ path := "src/api/a.py", lines_added := 30 },
         { path := "src/core/b.py", lines_added := 5 }] none,
      i.severity = .warning ∧ i.file_path = "[cross-file]") ∧
    (∃ i ∈ synthesize_cross_file true
        [{ file_path := "src/api/a.py" }, { file_path := "src/core/b.py" }]
        [{ path := "src/api/a.py", lines_added := 30 },
         { path := "src/core/b.py", lines_added := 5 }] none,
      i.severity = .suggestion ∧ i.file_path = "[cross-file]") := by
  have h := synthesize_cross_file_structural_checks
    [{ file_path := "src/api/a.py" }, { file_path := "src/core/b.py" }]
    [{ path := "src/api/a.py", lines_added := 30 },
     { path := "src/core/b.py", lines_added := 5 }] none (by decide)
  exact ⟨h.1 (by decide)
           ⟨{ path := "src/api/a.py", lines_added := 30 }, by decide, by decide⟩,
         h.2 ⟨{ path := "src/api/a.py", lines_added := 30 }, by decide, by decide⟩
           (by decide)⟩


/-! ## Parallel per-file review collection (`agent.py`, `_review_files_parallel`) -/

/-- The fallback `FileReviewResult` built for a task that ended in an
exception (agent.py lines 226-239): a single warning issue carrying the
failure text. -/
def failedFileResult (path : String) (err : String) : FileReviewResult :=
  { file_path := path,
    issues := [{ severity := .warning, message := "Review failed: " ++ err,
                 file_path := path }],
    summary := "Review failed due to error" }

/-- The collection loop of `_review_files_parallel` (agent.py lines
222-243): the gathered outcomes are walked positionally; an exception
at index `i` is replaced by `failedFileResult` for `files[i].path`, an
ordinary result is kept unchanged. -/
def collect_results (files : List FileDiff)
    (outcomes : List (Except String FileReviewResult)) : List FileReviewResult :=
  (files.zip outcomes).map (fun fo =>
    match fo.2 with
    | .ok r => r
    | .error e => failedFileResult fo.1.path e)

/-- `asyncio.gather` semantics: the tasks may complete in any order
(`completions` below ranges over arbitrary permutations of the indexed
outcomes), but `gather` returns the outcomes in task-submission order,
reassembled by task index. -/
def gather_results (n : Nat)
    (completions : List (Nat × Except String FileReviewResult)) :
    List (Except String FileReviewResult) :=
  (List.range n).filterMap (fun i => completions.lookup i)

theorem collect_results_length (files : List FileDiff)
    (outcomes : List (Except String FileReviewResult))
    (hlen : outcomes.length = files.length) :
    (collect_results files outcomes).length = files.length := by
  simp [collect_results, hlen]

theorem collect_results_getElem (files : List FileDiff) :
    ∀ (outcomes : List (Except String FileReviewResult)) (j : Nat)
      (fj : FileDiff) (oj : Except String FileReviewResult),
      files[j]? = some fj → outcomes[j]? = some oj →
      (collect_results files outcomes)[j]? =
        some (match oj with
              | .ok r => r
              | .error e => failedFileResult fj.path e) := by
  induction files with
  | nil => intro outcomes j fj oj hf ho; simp at hf
  | cons f ft ih =>
    intro outcomes j fj oj hf ho
    cases outcomes with
    | nil => simp at ho
    | cons o ot =>
      cases j with
      | zero =>
        simp only [List.getElem?_cons_zero, Option.some_inj] at hf ho
        subst hf; subst ho
        simp [collect_results]
      | succ j =>
        simp only [List.getElem?_cons_succ] at hf ho
        simpa [collect_results] using ih ot j fj oj hf ho

theorem lookup_eq_some_of_mem {β : Type} {l : List (Nat × β)} {i : Nat} {v : β}
    (hnd : (l.map Prod.fst).Nodup) (hm : (i, v) ∈ l) : l.lookup i = some v := by
  induction l with
  | nil => simp at hm
  | cons p t ih =>
    obtain ⟨j, w⟩ := p
    simp only [List.map_cons, List.nodup_cons] at hnd
    rcases List.mem_cons.1 hm with heq | hmem
    · cases heq
      simp [List.lookup]
    · have hne : i ≠ j := by
        rintro rfl
        exact hnd.1 (List.mem_map_of_mem Prod.fst hmem)
      have hbeq : (i == j) = false := beq_eq_false_iff_ne.2 hne
      simp [List.lookup, hbeq, ih hnd.2 hmem]

theorem filterMap_congr_mem {α β : Type} {f g : α → Option β} :
    ∀ {l : List α}, (∀ a ∈ l, f a = g a) → l.filterMap f = l.filterMap g
  | [], _ => rfl
  | a :: t, h => by
    simp only [List.filterMap_cons, h a (List.mem_cons_self a t),
      filterMap_congr_mem (fun x hx => h x (List.mem_cons_of_mem a hx))]

theorem range_filterMap_getElem {β : Type} (l : List β) :
    (List.range l.length).filterMap (fun i => l[i]?) = l := by
  induction l using List.reverseRecOn with
  | nil => rfl
  | append_singleton t b ih =>
    rw [List.length_append, List.length_singleton, List.range_succ,
      List.filterMap_append]
    have h1 : (List.range t.length).filterMap (fun i => (t ++ [b])[i]?) = t := by
      rw [filterMap_congr_mem (fun i hi => ?_), ih]
      have hi' : i < t.length := List.mem_range.1 hi
      rw [List.getElem?_append]
      simp [hi']
    have h2 : ([t.length].filterMap (fun i => (t ++ [b])[i]?)) = [b] := by
      simp
    rw [h1, h2]

theorem gather_results_eq (outcomes : List (Except String FileReviewResult))
    (completions : List (Nat × Except String FileReviewResult))
    (hperm : List.Perm completions outcomes.enum) :
    gather_results outcomes.length completions = outcomes := by
  have hnd : (completions.map Prod.fst).Nodup := by
    have h1 : List.Perm (completions.map Prod.fst) (outcomes.enum.map Prod.fst) :=
      hperm.map _
    rw [List.enum_map_fst] at h1
    exact h1.nodup_iff.mpr (List.nodup_range _)
  unfold gather_results
  rw [filterMap_congr_mem (fun i hi => ?_), range_filterMap_getElem]
  have hi' : i < outcomes.length := List.mem_range.1 hi
  have hv : outcomes[i]? = some outcomes[i] := List.getElem?_eq_getElem hi'
  rw [hv]
  exact lookup_eq_some_of_mem hnd
    (hperm.symm.subset (List.mem_enum_iff_getElem?.2 hv))

/-- C6: a Reviewer fault for one of the (at least two) included files is
recovered locally: at the faulted index the collected result is exactly
the fallback `FileReviewResult` for that file — carrying a single
warning-severity issue whose message holds the failure text — while
every other index with an ordinary outcome keeps its
`FileReviewResult` unchanged, and the collected list still has one
entry per included file. -/
theorem per_file_fault_isolation (files : List FileDiff)
    (outcomes : List (Except String FileReviewResult))
    (hlen : outcomes.length = files.length) (_h2 : 2 ≤ files.length)
    (i : Nat) (fi : FileDiff) (e : String)
    (hfi : files[i]? = some fi) (he : outcomes[i]? = some (Except.error e)) :
    (collect_results files outcomes).length = files.length ∧
    (collect_results files outcomes)[i]? = some (failedFileResult fi.path e) ∧
    (failedFileResult fi.path e).issues =
      [{ severity := .warning, message := "Review failed: " ++ e,
         file_path := fi.path }] ∧
    (∀ (j : Nat) (fj : FileDiff) (r : FileReviewResult),
      files[j]? = some fj → outcomes[j]? = some (Except.ok r) →
      (collect_results files outcomes)[j]? = some r) := by
  refine ⟨collect_results_length files outcomes hlen, ?_, rfl, ?_⟩
  · simpa using collect_results_getElem files outcomes i fi (.error e) hfi he
  · intro j fj r hfj hoj
    simpa using collect_results_getElem files outcomes j fj (.ok r) hfj hoj

/-- Witness for C6: two files, the second task faults with text `boom`;
the collected result at index 1 is exactly the fallback record. -/
theorem per_file_fault_isolation_witness :
    (collect_results [{ path := "a.py" }, { path := "b.py" }]
        [.ok { file_path := "a.py", summary := "fine" }, .error "boom"])[1]? =
      some (failedFileResult "b.py" "boom") :=
  (per_file_fault_isolation [{ path := "a.py" }, { path := "b.py" }]
    [.ok { file_path := "a.py", summary := "fine" }, .error "boom"]
    (by rfl) (by decide) 1 { path := "b.py" } "boom" (by rfl) (by rfl)).2.1

/-- C7: for every completion order of the per-file review tasks
(`completions` is an arbitrary permutation of the indexed outcomes,
faults included), the collected per-file result list has exactly one
entry per included file, and the entry at each index `i` carries the
path of the `i`-th included file — the order matches the included-file
order from Triage, independent of completion order. -/
theorem result_order_matches_included (files : List FileDiff)
    (outcomes : List (Except String FileReviewResult))
    (completions : List (Nat × Except String FileReviewResult))
    (hlen : outcomes.length = files.length)
    (hperm : List.Perm completions outcomes.enum)
    (hpaths : ∀ (i : Nat) (r : FileReviewResult),
      outcomes[i]? = some (Except.ok r) →
      ∀ (fi : FileDiff), files[i]? = some fi → r.file_path = fi.path) :
    (collect_results files (gather_results files.length completions)).length
      = files.length ∧
    ∀ (i : Nat) (fi : FileDiff), files[i]? = some fi →
      ∃ res : FileReviewResult,
        (collect_results files (gather_results files.length completions))[i]?
          = some res ∧ res.file_path = fi.path := by
  have hg : gather_results files.length completions = outcomes := by
    rw [← hlen]
    exact gather_results_eq outcomes completions hperm
  rw [hg]
  constructor
  · exact collect_results_length files outcomes hlen
  · intro i fi hfi
    have hi : i < files.length := by
      by_contra hlt
      rw [List.getElem?_eq_none_iff.2 (Nat.le_of_not_lt hlt)] at hfi
      · exact Option.noConfusion hfi
    have hio : i < outcomes.length := by omega
    have ho : outcomes[i]? = some outcomes[i] := List.getElem?_eq_getElem hio
    refine ⟨_, collect_results_getElem files outcomes i fi outcomes[i] hfi ho, ?_⟩
    cases hcase : outcomes[i] with
    | ok r =>
      simp only [hcase]
      exact hpaths i r (by rw [ho, hcase]) fi hfi
    | error e => simp [hcase, failedFileResult]

/-- Witness for C7: two tasks completing in reverse order (the faulting
second task first); the collected entry at index 1 still carries the
second file's path. -/
theorem result_order_matches_included_witness :
    ∃ res : FileReviewResult,
      (collect_results [{ path := "a.py" }, { path := "b.py" }]
          (gather_results 2
            [(1, .error "boom"),
             (0, .ok { file_path := "a.py", summary := "fine" })]))[1]?
        = some res ∧ res.file_path = ({ path := "b.py" } : FileDiff).path := by
  have h := result_order_matches_included
    [{ path := "a.py" }, { path := "b.py" }]
    [.ok { file_path := "a.py", summary := "fine" }, .error "boom"]
    [(1, .error "boom"), (0, .ok { file_path := "a.py", summary := "fine" })]
    (by rfl)
    (by
      have := List.Perm.swap
        ((0 : Nat), (Except.ok { file_path := "a.py", summary := "fine" } :
          Except String FileReviewResult))
        ((1 : Nat), (Except.error "boom" :
          Except String FileReviewResult)) []
      simpa [List.enum] using this)
    (by
      intro i r h fi hf
      match i with
      | 0 =>
        simp only [List.getElem?_cons_zero, Option.some_inj] at h hf
        cases h; cases hf; rfl
      | 1 => simp at h
      | (n+2) => simp at h)
  exact h.2 1 { path := "b.py" } (by rfl)


/-! ## Git diff parser (`git_diff.py`, `GitDiffParser.parse_diff`)

The regexes of the parser are translated line-matcher by line-matcher:
`FILE_HEADER` (with the greedy backtracking split on the last feasible
`" b/"`), `HUNK_HEADER`, the `re.match` prefix tests for the status
markers, and `RENAME_FROM`. -/

/-- Python whitespace for `str.strip()` (ASCII range). -/
def isPySpace (c : Char) : Bool :=
  c = ' ' || c = '\t' || c = '\n' || c = '\r' || c = '\x0b' || c = '\x0c'

/-- Python `s.strip()`. -/
def pyStrip (s : String) : String :=
  (((s.data.dropWhile isPySpace).reverse.dropWhile isPySpace).reverse).asString

/-- Digits to number, most significant first. -/
def digitsToNat (ds : List Char) : Nat :=
  ds.foldl (fun acc c => acc * 10 + (c.toNat - 48)) 0

/-- Consume `\d+`: at least one leading digit, returning the value and
the rest. -/
def takeNat (l : List Char) : Option (Nat × List Char) :=
  let digits := l.takeWhile Char.isDigit
  if digits.isEmpty then none
  else some (digitsToNat digits, l.dropWhile Char.isDigit)

/-- Consume the optional `(?:,(\d+))?`: a comma followed by digits, or
nothing (a comma not followed by digits is left in place, as the regex
backtracks out of the optional group). -/
def parseOptComma (l : List Char) : Option Nat × List Char :=
  match l with
  | ',' :: rest =>
    (match takeNat rest with
     | some (b, r) => (some b, r)
     | none => (none, l))
  | _ => (none, l)

/-- `FILE_HEADER = ^diff --git a/(.+) b/(.+)$`: after the fixed prefix,
the greedy first group takes the largest split on `" b/"` that leaves
both captures nonempty. -/
def splitGitPaths (rest : List Char) : Option (List Char × List Char) :=
  let n := rest.length
  let candidates := (List.range n).filter (fun i =>
    prefixB " b/".data (rest.drop i) && decide (1 ≤ i) && decide (i + 3 < n))
  match candidates.getLast? with
  | some i => some (rest.take i, rest.drop (i + 3))
  | none => none

/-- `FILE_HEADER.match(line)`: old and new paths. -/
def parseFileHeader (line : String) : Option (String × String) :=
  let l := line.data
  if prefixB "diff --git a/".data l then
    match splitGitPaths (l.drop 13) with
    | some (o, n) => some (o.asString, n.asString)
    | none => none
  else none

/-- `NEW_FILE = ^new file mode` (`re.match`: prefix test). -/
def isNewFileLine (line : String) : Bool := prefixB "new file mode".data line.data

/-- `DELETED_FILE = ^deleted file mode`. -/
def isDeletedFileLine (line : String) : Bool :=
  prefixB "deleted file mode".data line.data

/-- `BINARY_FILE = ^Binary files`. -/
def isBinaryLine (line : String) : Bool := prefixB "Binary files".data line.data

/-- `RENAME_FROM = ^rename from (.+)$`: at least one character after the
12-character prefix. -/
def parseRenameFrom (line : String) : Option String :=
  if prefixB "rename from ".data line.data && decide (12 < line.data.length) then
    some ((line.data.drop 12).asString)
  else none

/-- `HUNK_HEADER = ^@@ -(\d+)(?:,(\d+))? \+(\d+)(?:,(\d+))? @@(.*)$`,
with the missing counts defaulting to 1 as in
`int(hunk_match.group(2) or "1")`. -/
def parseHunkHeader (line : String) : Option (Nat × Nat × Nat × Nat × String) :=
  match line.data with
  | '@' :: '@' :: ' ' :: '-' :: rest =>
    match takeNat rest with
    | none => none
    | some (oldStart, r1) =>
      let oc := parseOptComma r1
      match oc.2 with
      | ' ' :: '+' :: r3 =>
        match takeNat r3 with
        | none => none
        | some (newStart, r4) =>
          let nc := parseOptComma r4
          match nc.2 with
          | ' ' :: '@' :: '@' :: r6 =>
            some (oldStart, oc.1.getD 1, newStart, nc.1.getD 1, r6.asString)
          | _ => none
      | _ => none
  | _ => none

/-- `line.startswith("+") and not line.startswith("+++")`. -/
def isPlusLine (line : String) : Bool :=
  prefixB "+".data line.data && !prefixB "+++".data line.data

/-- `line.startswith("-") and not line.startswith("---")`. -/
def isMinusLine (line : String) : Bool :=
  prefixB "-".data line.data && !prefixB "---".data line.data

/-- The loop state of `parse_diff` (git_diff.py lines 73-76). -/
structure ParseState where
  files : List FileDiff
  current_file : Option FileDiff
  current_hunk : Option DiffHunk
  hunk_content : List String

/-- `current_hunk.content = "\n".join(hunk_content)`. -/
def setContent (h : DiffHunk) (content : List String) : DiffHunk :=
  { h with content := joinNL content }

/-- Close the pending hunk (if any) into a file. -/
def closeHunk (f : FileDiff) (hunk : Option DiffHunk) (content : List String) :
    FileDiff :=
  match hunk with
  | some h => { f with hunks := f.hunks ++ [setContent h content] }
  | none => f

/-- One iteration of the `parse_diff` loop (git_diff.py lines 78-161). -/
def processLine (st : ParseState) (line : String) : ParseState :=
  match parseFileHeader line with
  | some (oldp, newp) =>
    let files' :=
      match st.current_file with
      | some f => st.files ++ [closeHunk f st.current_hunk st.hunk_content]
      | none => st.files
    let newFile : FileDiff :=
      { path := newp,
        old_path := if oldp ≠ newp then some oldp else none,
        raw_diff := line ++ "\n" }
    { files := files', current_file := some newFile,
      current_hunk := none, hunk_content := [] }
  | none =>
    let st := { st with current_file :=
      st.current_file.map (fun (f : FileDiff) => { f with raw_diff := f.raw_diff ++ line ++ "\n" }) }
    if isNewFileLine line then
      { st with current_file :=
          st.current_file.map (fun (f : FileDiff) => { f with status := "added" }) }
    else if isDeletedFileLine line then
      { st with current_file :=
          st.current_file.map (fun (f : FileDiff) => { f with status := "deleted" }) }
    else if isBinaryLine line then
      { st with current_file :=
          st.current_file.map (fun (f : FileDiff) => { f with is_binary := true }) }
    else
      match parseRenameFrom line with
      | some oldp =>
        { st with current_file :=
            st.current_file.map (fun (f : FileDiff) =>
              { f with status := "renamed", old_path := some oldp }) }
      | none =>
        match parseHunkHeader line with
        | some (os, oc, ns, nc, tail) =>
          let st :=
            match st.current_hunk, st.current_file with
            | some h, some f =>
              let f' : FileDiff := { f with hunks := f.hunks ++ [setContent h st.hunk_content] }
              { st with current_file := some f' }
            | _, _ => st
          let newHunk : DiffHunk :=
            { old_start := os, old_count := oc, new_start := ns, new_count := nc,
              content := "", header := pyStrip tail }
          { st with current_hunk := some newHunk, hunk_content := [line] }
        | none =>
          match st.current_hunk with
          | some _ =>
            let st := { st with hunk_content := st.hunk_content ++ [line] }
            match st.current_file with
            | some f =>
              let f' : FileDiff :=
                if isPlusLine line then { f with lines_added := f.lines_added + 1 }
                else if isMinusLine line then { f with lines_deleted := f.lines_deleted + 1 }
                else f
              { st with current_file := some f' }
            | none => st
          | none => st

/-- The final flush after the loop (git_diff.py lines 163-168). -/
def finalizeParse (st : ParseState) : List FileDiff :=
  match st.current_file with
  | some f => st.files ++ [closeHunk f st.current_hunk st.hunk_content]
  | none => st.files

/-- `GitDiffParser.parse_diff` (git_diff.py lines 71-170). -/
def parse_diff (diff_output : String) : List FileDiff :=
  finalizeParse ((splitLines diff_output).foldl processLine
    { files := [], current_file := none, current_hunk := none, hunk_content := [] })

/-- The claim's independent whole-text counter: lines prefixed `+`
excluding `+++`, over the entire input. -/
def countAddedLines (s : String) : Nat :=
  ((splitLines s).filter (fun l => isPlusLine l)).length

/-- The claim's independent whole-text counter: lines prefixed `-`
excluding `---`. -/
def countDeletedLines (s : String) : Nat :=
  ((splitLines s).filter (fun l => isMinusLine l)).length

/-- Independent restricted counter for the amended claim: the same
`+`/`-` prefix counts, restricted to lines lying inside a hunk of a
recognized file — tracked with just two booleans (a file header has
been seen; a hunk header has been seen since). -/
def scanLines : List String → Bool → Bool → Nat → Nat → Nat × Nat
  | [], _, _, a, d => (a, d)
  | line :: rest, hasFile, inHunk, a, d =>
    if (parseFileHeader line).isSome then scanLines rest true false a d
    else if isNewFileLine line then scanLines rest hasFile inHunk a d
    else if isDeletedFileLine line then scanLines rest hasFile inHunk a d
    else if isBinaryLine line then scanLines rest hasFile inHunk a d
    else if (parseRenameFrom line).isSome then scanLines rest hasFile inHunk a d
    else if (parseHunkHeader line).isSome then scanLines rest hasFile true a d
    else if hasFile && inHunk then
      (if isPlusLine line then scanLines rest hasFile inHunk (a + 1) d
       else if isMinusLine line then scanLines rest hasFile inHunk a (d + 1)
       else scanLines rest hasFile inHunk a d)
    else scanLines rest hasFile inHunk a d

/-- The two restricted counts for a whole input text. -/
def scanCounts (s : String) : Nat × Nat :=
  scanLines (splitLines s) false false 0 0


/-- Running added/deleted totals of a parse state: completed files plus
the file currently being built. -/
def addedTotal (st : ParseState) : Nat :=
  (st.files.map FileDiff.lines_added).sum +
    (match st.current_file with | some f => f.lines_added | none => 0)

/-- Deleted-line analogue of `addedTotal`. -/
def deletedTotal (st : ParseState) : Nat :=
  (st.files.map FileDiff.lines_deleted).sum +
    (match st.current_file with | some f => f.lines_deleted | none => 0)

theorem processLines_counts (lines : List String) :
    ∀ st : ParseState,
      (addedTotal (lines.foldl processLine st),
        deletedTotal (lines.foldl processLine st)) =
      scanLines lines st.current_file.isSome st.current_hunk.isSome
        (addedTotal st) (deletedTotal st) := by
  induction lines with
  | nil => intro st; simp [scanLines]
  | cons line rest ih =>
    intro st
    rw [List.foldl_cons, ih (processLine st line)]
    by_cases hpf : (parseFileHeader line).isSome
    · obtain ⟨⟨oldp, newp⟩, heq⟩ := Option.isSome_iff_exists.1 hpf
      simp only [scanLines, hpf, if_true]
      cases hcf : st.current_file <;> cases hch : st.current_hunk <;>
        simp [processLine, heq, addedTotal, deletedTotal, closeHunk, hcf, hch]
    · have hpf' : parseFileHeader line = none := Option.not_isSome_iff_eq_none.1 hpf
      by_cases hnf : isNewFileLine line
      · simp only [scanLines, hpf, hnf, if_true, if_false, Bool.false_eq_true]
        cases hcf : st.current_file <;>
          simp [processLine, hpf', hnf, addedTotal, deletedTotal, hcf]
      · by_cases hdf : isDeletedFileLine line
        · simp only [scanLines, hpf, hnf, hdf, if_true, if_false, Bool.false_eq_true]
          cases hcf : st.current_file <;>
            simp [processLine, hpf', hnf, hdf, addedTotal, deletedTotal, hcf]
        · by_cases hbf : isBinaryLine line
          · simp only [scanLines, hpf, hnf, hdf, hbf, if_true, if_false, Bool.false_eq_true]
            cases hcf : st.current_file <;>
              simp [processLine, hpf', hnf, hdf, hbf, addedTotal, deletedTotal, hcf]
          · by_cases hrf : (parseRenameFrom line).isSome
            · obtain ⟨oldp, heq⟩ := Option.isSome_iff_exists.1 hrf
              simp only [scanLines, hpf, hnf, hdf, hbf, hrf, if_true, if_false,
                Bool.false_eq_true]
              cases hcf : st.current_file <;>
                simp [processLine, hpf', hnf, hdf, hbf, heq, addedTotal, deletedTotal, hcf]
            · have hrf' : parseRenameFrom line = none := Option.not_isSome_iff_eq_none.1 hrf
              by_cases hhh : (parseHunkHeader line).isSome
              · obtain ⟨⟨os, oc, ns, nc, tl⟩, heq⟩ := Option.isSome_iff_exists.1 hhh
                simp only [scanLines, hpf, hnf, hdf, hbf, hrf, hhh, if_true, if_false,
                  Bool.false_eq_true]
                cases hcf : st.current_file <;> cases hch : st.current_hunk <;>
                  simp [processLine, hpf', hnf, hdf, hbf, hrf', heq,
                    addedTotal, deletedTotal, hcf, hch]
              · have hhh' : parseHunkHeader line = none := Option.not_isSome_iff_eq_none.1 hhh
                simp only [scanLines, hpf, hnf, hdf, hbf, hrf, hhh, if_true, if_false,
                  Bool.false_eq_true]
                cases hcf : st.current_file <;> cases hch : st.current_hunk <;>
                  by_cases hplus : isPlusLine line <;>
                    by_cases hminus : isMinusLine line <;>
                      simp [processLine, hpf', hnf, hdf, hbf, hrf', hhh',
                        addedTotal, deletedTotal, hcf, hch, hplus, hminus,
                        Nat.add_assoc]

theorem finalizeParse_added (st : ParseState) :
    ((finalizeParse st).map FileDiff.lines_added).sum = addedTotal st := by
  cases hcf : st.current_file <;> cases hch : st.current_hunk <;>
    simp [finalizeParse, addedTotal, closeHunk, hcf, hch]

theorem finalizeParse_deleted (st : ParseState) :
    ((finalizeParse st).map FileDiff.lines_deleted).sum = deletedTotal st := by
  cases hcf : st.current_file <;> cases hch : st.current_hunk <;>
    simp [finalizeParse, deletedTotal, closeHunk, hcf, hch]

/-- Counterexample for C8: on the raw text `"+x"` — a `+`-prefixed line
outside any file header and hunk — the parser returns no FileChange at
all, so the summed `lines_added` is 0, while the independent whole-text
count of `+`-prefixed lines is 1. -/
theorem parse_diff_counts_not_whole_text :
    ((parse_diff "+x").map FileDiff.lines_added).sum = 0 ∧
    countAddedLines "+x" = 1 ∧
    ((parse_diff "+x").map FileDiff.lines_added).sum ≠ countAddedLines "+x" := by
  decide

/-- C8 amended: the summed `lines_added`/`lines_deleted` of the returned
FileChanges equal an independent count of `+`/`-` prefixed lines
(excluding the `+++`/`---` markers) over the input text restricted to
lines lying inside a hunk of a recognized file (`scanCounts`): lines
outside any file header or hunk are not counted. -/
theorem parse_diff_counts (s : String) :
    ((parse_diff s).map FileDiff.lines_added).sum = (scanCounts s).1 ∧
    ((parse_diff s).map FileDiff.lines_deleted).sum = (scanCounts s).2 := by
  have h := processLines_counts (splitLines s)
    { files := [], current_file := none, current_hunk := none, hunk_content := [] }
  simp only [addedTotal, deletedTotal, List.map_nil, List.sum_nil, Option.isSome_none] at h
  constructor
  · rw [parse_diff, finalizeParse_added, scanCounts]
    have := congrArg Prod.fst h
    simpa [addedTotal] using this
  · rw [parse_diff, finalizeParse_deleted, scanCounts]
    have := congrArg Prod.snd h
    simpa [deletedTotal] using this

end DraagonForge
